import Mathlib

/-!
Shallow embedding of the ANT (Attention Network Test) implementation in
ant.py (class ANTExp), covering the design generator, the geometry
engine, the trial scheduler `_oneProcedure`, the response classifier
and the session runner `fullExperiment`.

Times are modelled as rationals (seconds).  The PsychoPy display/clock
collaborator is modelled as an oracle (`TrialClock`): `flip` maps the
requested deadline of a `waitAndFlip` call to the actual timestamp the
clock reports right after that flip, `respRead` is the clock reading
taken at the `rt` computation (line 335), and `shortRead` the reading
used for `tf` in short mode (line 346).  Keyboard input is an oracle
from the requested maxWait to an optional (key, timestamp) pair,
mirroring `event.waitKeys(maxWait, timeStamped=clock)`.

Fallible evaluation returns `Except PyError`, so the Python
UnboundLocalError that the source can raise (a local variable read
before any assignment on the taken path) is an explicit error value.
-/

namespace ANT

/-- Cue factor of the design: line 215 of ant.py. -/
inductive Cue
  | no
  | spatial
  | center
  | double
deriving DecidableEq

/-- Target location factor: line 216 of ant.py. -/
inductive TLoc
  | top
  | bottom
deriving DecidableEq

/-- Target direction factor: line 217 of ant.py. -/
inductive TDir
  | left
  | right
deriving DecidableEq

/-- Flanker congruency factor: line 218 of ant.py. -/
inductive Flank
  | incongruent
  | neutral
  | congruent
deriving DecidableEq

/-- One experimental condition, the Bunch built at line 219 of ant.py. -/
structure Condition where
  cue : Cue
  tloc : TLoc
  tdir : TDir
  flank : Flank
deriving DecidableEq

/-- Key name of a target direction, as compared against at line 326 of
ant.py (`keys[0][0] == tdir`); PsychoPy names the arrow keys by these
same strings. -/
def tdirName : TDir → String
  | .left => "left"
  | .right => "right"

/-- Direction opposite to a given one; inlined at line 152 of ant.py
(`rdir = left if tdir==right else right`). -/
def opposite : TDir → TDir
  | .left => .right
  | .right => .left

/-! Semi-configurable timing constants, lines 194-200 of ant.py, in
milliseconds. -/

/-- Minimum initial fixation time in ms (`self.tD1min`, line 194). -/
def tD1min : ℤ := 400

/-- Maximum initial fixation time in ms (`self.tD1max`, line 195). -/
def tD1max : ℤ := 1600

/-- Cue display time in ms (`self.tCue`, line 196). -/
def tCue : ℤ := 100

/-- Post-cue delay before target in ms (`self.tNoCue`, line 197). -/
def tNoCue : ℤ := 400

/-- Target response timeout in ms (`self.tOut`, line 198). -/
def tOut : ℤ := 1700

/-- Target display time when running dummy, in ms (`self.tDummy`, line 199). -/
def tDummy : ℤ := 700

/-- Total procedure time in ms (`self.tExp`, line 200). -/
def tExp : ℤ := 4000

/-! Visual constants, lines 203-209 of ant.py, in visual-angle degrees. -/

/-- Size of an arrow (`self.arrowSize`, line 203). -/
def arrowSize : ℚ := 55/100

/-- Separation between arrows (`self.arrowSep`, line 204). -/
def arrowSep : ℚ := 6/100

/-- Size of the fixation and the cue (`self.cueSize`, line 205). -/
def cueSize : ℚ := 35/100

/-- Linewidth of stimuli (`self.allWidthDeg`, line 206). -/
def allWidthDeg : ℚ := 4/100

/-- Vertical distance from fixation center to target center
(`self.targetDist`, line 209). -/
def targetDist : ℚ := 106/100

/-- Full factorial condition space, built by the nested loops at lines
213-220 of ant.py, in the same nested enumeration order. -/
def procedures : List Condition :=
  ([Cue.no, Cue.spatial, Cue.center, Cue.double]).flatMap fun cue =>
  ([TLoc.top, TLoc.bottom]).flatMap fun tloc =>
  ([TDir.left, TDir.right]).flatMap fun tdir =>
  ([Flank.incongruent, Flank.neutral, Flank.congruent]).map fun flank =>
    ⟨cue, tloc, tdir, flank⟩

/-! Geometry engine: `_drawLine`, `_drawHead`, `_targetStim`
(lines 108-159 of ant.py).  A primitive records the constructor
arguments of the corresponding ShapeStim; its vertex list is a derived
function. -/

/-- Line body primitive, the arguments of `_drawLine` (line 108):
position, size, pen width, whether it is foreshortened for an
arrowhead, and the direction it is foreshortened toward (`none` when
the source passes None for a plain full-length segment). -/
structure LinePrim where
  pos : ℚ × ℚ
  sz : ℚ
  pw : ℚ
  short : Bool
  tdir : Option TDir
deriving DecidableEq

/-- Arrowhead primitive, the arguments of `_drawHead` (line 121). -/
structure HeadPrim where
  pos : ℚ × ℚ
  sz : ℚ
  pw : ℚ
  tdir : TDir
deriving DecidableEq

/-- Vertices of a line body, from the branches at lines 112-118 of
ant.py: foreshortened by two thirds toward the head side when `short`,
else a full rectangle. -/
def lineVertices (l : LinePrim) : List (ℚ × ℚ) :=
  let a := l.sz / 2
  let pw := l.pw
  if l.short ∧ l.tdir = some TDir.left then
    [(a, pw), (-a/3, pw), (-a/3, -pw), (a, -pw)]
  else if l.short ∧ l.tdir = some TDir.right then
    [(-a, pw), (a/3, pw), (a/3, -pw), (-a, -pw)]
  else
    [(-a, pw), (a, pw), (a, -pw), (-a, -pw)]

/-- Vertices of an arrowhead, lines 124-127 of ant.py. -/
def headVertices (h : HeadPrim) : List (ℚ × ℚ) :=
  let a := h.sz / 2
  match h.tdir with
  | .left => [(-a/3, a/3), (-a, 0), (-a/3, -a/3)]
  | .right => [(a/3, a/3), (a, 0), (a/3, -a/3)]

/-- Constructor wrapper mirroring `self._drawLine(pos, sz, pw, short, tdir)`. -/
def drawLine (pos : ℚ × ℚ) (sz pw : ℚ) (short : Bool) (tdir : Option TDir) : LinePrim :=
  ⟨pos, sz, pw, short, tdir⟩

/-- Constructor wrapper mirroring `self._drawHead(pos, sz, pw, tdir)`. -/
def drawHead (pos : ℚ × ℚ) (sz pw : ℚ) (tdir : TDir) : HeadPrim :=
  ⟨pos, sz, pw, tdir⟩

/-- Pre-composited target stimulus: the `lines + heads` buffer built by
`_targetStim` (line 159 of ant.py). -/
structure TargetStim where
  lines : List LinePrim
  heads : List HeadPrim
deriving DecidableEq

/-- Translation of `_targetStim(tloc, tdir, flank)` (lines 131-159 of
ant.py), including the `self.runDummy` branch. -/
def targetStim (runDummy : Bool) (tloc : TLoc) (tdir : TDir) (flank : Flank) : TargetStim :=
  let sz := arrowSize
  let pw := allWidthDeg
  let p := arrowSize + arrowSep
  let y : ℚ := if tloc = TLoc.top then targetDist else -targetDist
  if runDummy then
    ⟨([-(2*p), -p, 0, p, 2*p]).map fun x => drawLine (x, y) sz pw false none, []⟩
  else
    match flank with
    | .neutral =>
        ⟨(([-(2*p), -p, p, 2*p]).map fun x => drawLine (x, y) sz pw false none)
            ++ [drawLine (0, y) sz pw true (some tdir)],
         [drawHead (0, y) sz pw tdir]⟩
    | .congruent =>
        ⟨([-(2*p), -p, 0, p, 2*p]).map fun x => drawLine (x, y) sz pw true (some tdir),
         ([-(2*p), -p, 0, p, 2*p]).map fun x => drawHead (x, y) sz pw tdir⟩
    | .incongruent =>
        let rdir := opposite tdir
        ⟨(([-(2*p), -p, p, 2*p]).map fun x => drawLine (x, y) sz pw true (some rdir))
            ++ [drawLine (0, y) sz pw true (some tdir)],
         (([-(2*p), -p, p, 2*p]).map fun x => drawHead (x, y) sz pw rdir)
            ++ [drawHead (0, y) sz pw tdir]⟩

/-! Trial scheduler `_oneProcedure` (lines 233-354 of ant.py). -/

/-- Display/clock oracle for one call of `_oneProcedure`.  `t0` is the
clock reading right after the unconditional initial flip (line 271);
`flip` gives the timestamp returned by a `waitAndFlip` as a function of
the requested deadline; `respRead` is the reading at line 335 and
`shortRead` the one at line 346. -/
structure TrialClock where
  t0 : ℚ
  flip : ℚ → ℚ
  respRead : ℚ
  shortRead : ℚ

/-- Python exceptions that the embedded code can raise. -/
inductive PyError
  | unboundLocal (name : String)
  | indexError
deriving DecidableEq

/-- Response classification stored in the result record: the strings
"OK", "NOK", "QUIT" assigned at lines 323-331 of ant.py; `TIMEOUT`
stands for the Python None assigned at line 334. -/
inductive Resp
  | OK
  | NOK
  | QUIT
  | TIMEOUT
deriving DecidableEq

/-- Result record of one procedure: the Bunch of line 354 of ant.py. -/
structure Bunch where
  condition : Condition
  wt : ℚ
  t0 : ℚ
  d1 : ℚ
  ct : ℚ
  d2 : ℚ
  rt : ℚ
  tf : ℚ
  resp : Resp
deriving DecidableEq

/-- Model of `waitAndFlip(t)` (lines 254-264 of ant.py): suspend until
shortly before the deadline `t`, flip once, and return the clock time
right after the flip.  The suspension has no data effect, so the model
is the clock oracle applied to the requested deadline. -/
def waitAndFlip (clk : TrialClock) (t : ℚ) : ℚ := clk.flip t

/-- Response-window timeout handed to `event.waitKeys` at lines 315-318
of ant.py: `tDummy/1000 - frameTime` when running dummy, else
`tOut/1000 - frameTime`. -/
def maxWaitDur (runDummy : Bool) (frameTime : ℚ) : ℚ :=
  if runDummy then (tDummy : ℚ)/1000 - frameTime else (tOut : ℚ)/1000 - frameTime

/-- Key-match test of lines 326-328 of ant.py: the key equals the
direction name, or is one of f, a, z, q for a left target, or one of
j, m, l, p for a right target. -/
def respKeyMatches (tdir : TDir) (k : String) : Prop :=
  k = tdirName tdir
  ∨ (k ∈ (["f", "a", "z", "q"] : List String) ∧ tdir = TDir.left)
  ∨ (k ∈ (["j", "m", "l", "p"] : List String) ∧ tdir = TDir.right)

instance (tdir : TDir) (k : String) : Decidable (respKeyMatches tdir k) := by
  unfold respKeyMatches
  infer_instance

/-- The timing fields and result record built by `_oneProcedure`: the
interval computations of lines 295, 301, 309, 335 and 343-346 of
ant.py and the Bunch of line 354.  Every deadline is an offset from the
trial-start reading `t0`; each recorded interval is the difference of
actual flip timestamps. -/
def procBunch (short : Bool) (startTime : ℚ) (cond : Condition) (clk : TrialClock)
    (r : ℤ) (resp : Resp) : Bunch :=
  let t0 := clk.t0
  let d1 := waitAndFlip clk (t0 + (r : ℚ) / 1000) - t0
  let ct := waitAndFlip clk (t0 + d1 + 1/10) - t0 - d1
  let d2 := waitAndFlip clk (t0 + d1 + 1/10 + 2/5) - t0 - d1 - ct
  let rt := clk.respRead - t0 - d2 - ct - d1
  let tf := if ¬ short then waitAndFlip clk (t0 + 4) - t0 else clk.shortRead - t0
  ⟨cond, startTime + t0, t0, d1, ct, d2, rt, tf, resp⟩

/-- Translation of `_oneProcedure(condition, short)` (lines 233-354 of
ant.py).  `r` is the value drawn by `random.randrange(tD1min, tD1max, 10)`
at line 274, and `wk` the keyboard oracle for `event.waitKeys`.  The
branch for key "0" (lines 324-325) performs only `core.wait(100)` and
assigns nothing to `resp`, so building the result Bunch at line 354
raises UnboundLocalError; `original` only affects drawing, never data. -/
def oneProcedure (runDummy original short : Bool) (frameTime startTime : ℚ)
    (cond : Condition) (clk : TrialClock) (r : ℤ)
    (wk : ℚ → Option (String × ℚ)) : Except PyError (Option Bunch) :=
  match wk (maxWaitDur runDummy frameTime) with
  | none => .ok (some (procBunch short startTime cond clk r Resp.TIMEOUT))
  | some (k, _ts) =>
      if k = "escape" then .ok none
      else if k = "0" then .error (PyError.unboundLocal ("resp"))
      else .ok (some (procBunch short startTime cond clk r
        (if respKeyMatches cond.tdir k then Resp.OK else Resp.NOK)))

/-! Session runner `fullExperiment` (lines 378-444 of ant.py). -/

/-- Per-trial oracle bundle for one loop iteration of
`fullExperiment`: the display/clock oracle, the randrange draw and the
keyboard oracle of that trial. -/
structure TrialOracle where
  clk : TrialClock
  r : ℤ
  waitKeys : ℚ → Option (String × ℚ)

/-- One row of the result table built at line 437 of ant.py. -/
structure ExpRow where
  t0 : ℚ
  trialIndex : ℕ
  warningType : ℕ
  congruency : ℕ
  d1 : ℚ
  ct : ℚ
  d2 : ℚ
  rt : ℚ
  tf : ℚ
  correct : ℕ
  complete : ℕ
deriving DecidableEq

/-- Zero row of the freshly allocated `np.zeros` table (line 398). -/
def zeroRow : ExpRow := ⟨0, 0, 0, 0, 0, 0, 0, 0, 0, 0, 0⟩

/-- Warning-type code of lines 417-424 of ant.py. -/
def warningTypeCode : Cue → ℕ
  | .no => 0
  | .center => 1
  | .double => 2
  | .spatial => 3

/-- Congruency code of lines 428-433 of ant.py. -/
def congruencyCode : Flank → ℕ
  | .congruent => 0
  | .incongruent => 1
  | .neutral => 2

/-- The row stored by `expData[i] = (...)` at line 437 of ant.py. -/
def expRow (i : ℕ) (cond : Condition) (b : Bunch) : ExpRow :=
  ⟨b.t0, i, warningTypeCode cond.cue, congruencyCode cond.flank,
   b.d1, b.ct, b.d2, b.rt, b.tf, if b.resp = Resp.OK then 1 else 0, 1⟩

/-- Loop body of `fullExperiment` (lines 403-442 of ant.py).  The
table is a function from index to row (the np.zeros array of width 11);
`k` counts executed trials and indexes the per-trial oracle; `maxrun`
is decremented per trial and breaks the loop when it reaches 0 exactly,
as the Python `maxrun -= 1; if maxrun==0: break` does. -/
def expLoop (runDummy original : Bool) (frameTime startTime : ℚ)
    (oracle : ℕ → TrialOracle) : ℕ → (ℕ → ExpRow) → List ℕ → Option ℤ →
    Except PyError (Option (ℕ → ExpRow))
  | _, a, [], _ => .ok (some a)
  | k, a, i :: rest, maxrun =>
      if hi : i < procedures.length then
        match oneProcedure runDummy original false frameTime startTime
            (procedures.get ⟨i, hi⟩) (oracle k).clk (oracle k).r (oracle k).waitKeys with
        | .error e => .error e
        | .ok none => .ok none
        | .ok (some b) =>
            let a2 := fun j => if j = i then expRow i (procedures.get ⟨i, hi⟩) b else a j
            match maxrun with
            | none => expLoop runDummy original frameTime startTime oracle (k+1) a2 rest none
            | some m =>
                if m - 1 = 0 then .ok (some a2)
                else expLoop runDummy original frameTime startTime oracle (k+1) a2 rest (some (m - 1))
      else .error PyError.indexError

/-- Final filter `expData[expData[:,10]==1]` (line 444): the rows of the
table, in index order, restricted to those marked complete. -/
def completedRows (a : ℕ → ExpRow) : List ExpRow :=
  ((List.range procedures.length).map a).filter fun row => decide (row.complete = 1)

/-- Translation of `fullExperiment(maxrun)` (lines 378-444 of ant.py),
parameterized by the already-drawn permutation `perm` of
`random.sample(xrange(48), 48)` (line 403).  Returns `.ok none` when a
trial aborts (the Python `return None`), otherwise the filtered table. -/
def fullExperiment (runDummy original : Bool) (frameTime startTime : ℚ)
    (oracle : ℕ → TrialOracle) (perm : List ℕ) (maxrun : Option ℤ) :
    Except PyError (Option (List ExpRow)) :=
  (expLoop runDummy original frameTime startTime oracle 0 (fun _ => zeroRow) perm maxrun).map
    (Option.map completedRows)

/-! Block randomizer: `random.sample(xrange(len(self.procedures)),
len(self.procedures))` at line 403, modelled by selection sampling
without replacement driven by a stream `g` of pseudo-random draws
(draw `j` picks position `g j mod poolsize` of the remaining pool),
which is the library contract of random.sample: a permutation of the
population determined by the generator state. -/

/-- Selection sampling without replacement from a pool. -/
def sampleAux (g : ℕ → ℕ) : ℕ → List ℕ → List ℕ
  | _, [] => []
  | j, x :: xs =>
      let idx := g j % (x :: xs).length
      (x :: xs).getD idx 0 :: sampleAux g (j + 1) ((x :: xs).eraseIdx idx)
  termination_by j pool => pool.length
  decreasing_by
    have hlt : g j % (x :: xs).length < (x :: xs).length :=
      Nat.mod_lt _ (Nat.succ_pos xs.length)
    simp only [List.length_eraseIdx]
    split
    · omega
    · omega

/-- Model of `random.sample(xrange(n), n)`: a full random permutation
of `range n`, deterministic in the generator stream `g`. -/
def randomSample (g : ℕ → ℕ) (n : ℕ) : List ℕ :=
  sampleAux g 0 (List.range n)

/-- Session runner with the block randomizer inlined, as called at
line 403 of ant.py: the permutation is drawn over the whole condition
space before the loop consumes it. -/
def fullExperimentRun (g : ℕ → ℕ) (runDummy original : Bool) (frameTime startTime : ℚ)
    (oracle : ℕ → TrialOracle) (maxrun : Option ℤ) :
    Except PyError (Option (List ExpRow)) :=
  fullExperiment runDummy original frameTime startTime oracle
    (randomSample g procedures.length) maxrun

/-- Boolean test: trial `i` of the condition space, run against oracle
`o` with `short=False` as `fullExperiment` does, completes with a
result record. -/
def completesTrial (runDummy original : Bool) (frameTime startTime : ℚ)
    (i : ℕ) (o : TrialOracle) : Bool :=
  if hi : i < procedures.length then
    match oneProcedure runDummy original false frameTime startTime
        (procedures.get ⟨i, hi⟩) o.clk o.r o.waitKeys with
    | .ok (some _) => true
    | _ => false
  else false

/-- Boolean test: trial `i` of the condition space, run against oracle
`o`, is aborted by the user (escape), i.e. `_oneProcedure` returns None. -/
def abortsTrial (runDummy original : Bool) (frameTime startTime : ℚ)
    (i : ℕ) (o : TrialOracle) : Bool :=
  if hi : i < procedures.length then
    match oneProcedure runDummy original false frameTime startTime
        (procedures.get ⟨i, hi⟩) o.clk o.r o.waitKeys with
    | .ok none => true
    | _ => false
  else false

/-- Alias key sets exactly as the spec lists them; the PsychoPy names
of the arrow keys are the direction names themselves. -/
def claimAliasKeys : TDir → List String
  | .left => ["left", "f", "a", "z", "q"]
  | .right => ["right", "j", "m", "l", "p"]

/-- Projection: the response classification of a scheduler outcome, when
a trial record was produced. -/
def respOf : Except PyError (Option Bunch) → Option Resp
  | .ok (some b) => some b.resp
  | _ => none

/-! Concrete inputs used by witnesses: an ideal clock whose flips land
exactly on their deadlines, with trial start at 0, a 500 ms fixation
draw and a response read at clock time 6/5. -/

/-- Demo condition: the first condition of the space. -/
def demoCond : Condition := ⟨Cue.no, TLoc.top, TDir.left, Flank.congruent⟩

/-- Demo clock: ideal flips, `t0 = 0`, response read at 6/5 s. -/
def demoClock : TrialClock := ⟨0, fun t => t, 6/5, 0⟩

/-- Demo keyboard oracle: the key "left" at clock time 6/5. -/
def demoKeys : ℚ → Option (String × ℚ) := fun _ => some ("left", 6/5)

/-- Result record produced by `oneProcedure` on the demo inputs. -/
def demoBunch : Bunch := ⟨demoCond, 0, 0, 1/2, 1/10, 2/5, 1/5, 4, Resp.OK⟩

/-- Demo per-trial oracle for session-level witnesses. -/
def demoOracle : TrialOracle := ⟨demoClock, 500, demoKeys⟩

/-- Oracle whose first trial responds "left" and whose later trials
press escape. -/
def abortOracle : ℕ → TrialOracle := fun k =>
  if k = 0 then demoOracle else ⟨demoClock, 500, fun _ => some ("escape", 6/5)⟩

/-- Demo clock for the padding scenario: ideal flips, response read at
clock time 1 (the response arrives at t0 + 1.0 s). -/
def padClock : TrialClock := ⟨0, fun t => t, 1, 0⟩

/-- Demo keyboard oracle for the padding scenario. -/
def padKeys : ℚ → Option (String × ℚ) := fun _ => some ("left", 1)

/-- Result record produced by `oneProcedure` on the padding scenario. -/
def padBunch : Bunch := ⟨demoCond, 0, 0, 1/2, 1/10, 2/5, 0, 4, Resp.OK⟩

/-! Theorems.  First the condition space and the geometry engine. -/

theorem procedures_length : procedures.length = 48 := by decide

lemma targetStim_congruent_policy (tloc : TLoc) (tdir : TDir) :
    (targetStim false tloc tdir Flank.congruent).heads.length = 5 ∧
    (∀ h ∈ (targetStim false tloc tdir Flank.congruent).heads, h.tdir = tdir) ∧
    (∀ l ∈ (targetStim false tloc tdir Flank.congruent).lines, l.tdir = some tdir) := by
  refine ⟨?_, ?_, ?_⟩ <;>
    simp [targetStim, drawHead, drawLine, List.forall_mem_map]

lemma targetStim_incongruent_policy (tloc : TLoc) (tdir : TDir) :
    (∀ h ∈ (targetStim false tloc tdir Flank.incongruent).heads,
        h.pos.1 ≠ 0 → h.tdir = opposite tdir) ∧
    ((targetStim false tloc tdir Flank.incongruent).heads.filter
        (fun h => decide (h.pos.1 ≠ 0))).length = 4 ∧
    (∀ h ∈ (targetStim false tloc tdir Flank.incongruent).heads,
        h.pos.1 = 0 → h.tdir = tdir) ∧
    (∀ l ∈ (targetStim false tloc tdir Flank.incongruent).lines,
        l.pos.1 ≠ 0 → l.tdir = some (opposite tdir)) := by
  refine ⟨?_, ?_, ?_, ?_⟩ <;>
    simp [targetStim, drawHead, drawLine, List.forall_mem_append,
      List.forall_mem_map, arrowSize, arrowSep] <;>
    norm_num

lemma targetStim_neutral_policy (tloc : TLoc) (tdir : TDir) :
    (∀ h ∈ (targetStim false tloc tdir Flank.neutral).heads, h.pos.1 = 0) ∧
    (∀ h ∈ (targetStim false tloc tdir Flank.neutral).heads, h.tdir = tdir) ∧
    (∀ l ∈ (targetStim false tloc tdir Flank.neutral).lines,
        l.pos.1 ≠ 0 → l.tdir = none ∧ l.short = false) := by
  refine ⟨?_, ?_, ?_⟩ <;>
    simp [targetStim, drawHead, drawLine, List.forall_mem_append,
      List.forall_mem_map]

lemma targetStim_dummy_policy (tloc : TLoc) (tdir : TDir) (flank : Flank) :
    (targetStim true tloc tdir flank).heads = [] ∧
    (∀ l ∈ (targetStim true tloc tdir flank).lines, l.tdir = none) := by
  refine ⟨?_, ?_⟩ <;> simp [targetStim, drawLine, List.forall_mem_map]

/-- C9: for every (targetLocation, targetDirection, flankerCongruency),
the generated target composite satisfies the congruency policy:
congruent means all five arrows point targetDirection; incongruent
means the four flanker arrows (the off-center positions) point the
opposite direction and only the center points targetDirection; neutral
means the four flanker positions are plain line segments with no
arrowhead and only the center carries direction; in dummy mode all
five positions are headless lines. -/
theorem targetStim_congruency_policy :
    ∀ (tloc : TLoc) (tdir : TDir),
      ((targetStim false tloc tdir Flank.congruent).heads.length = 5 ∧
        (∀ h ∈ (targetStim false tloc tdir Flank.congruent).heads, h.tdir = tdir) ∧
        (∀ l ∈ (targetStim false tloc tdir Flank.congruent).lines, l.tdir = some tdir))
    ∧ ((∀ h ∈ (targetStim false tloc tdir Flank.incongruent).heads,
          h.pos.1 ≠ 0 → h.tdir = opposite tdir) ∧
        ((targetStim false tloc tdir Flank.incongruent).heads.filter
          (fun h => decide (h.pos.1 ≠ 0))).length = 4 ∧
        (∀ h ∈ (targetStim false tloc tdir Flank.incongruent).heads,
          h.pos.1 = 0 → h.tdir = tdir) ∧
        (∀ l ∈ (targetStim false tloc tdir Flank.incongruent).lines,
          l.pos.1 ≠ 0 → l.tdir = some (opposite tdir)))
    ∧ ((∀ h ∈ (targetStim false tloc tdir Flank.neutral).heads, h.pos.1 = 0) ∧
        (∀ h ∈ (targetStim false tloc tdir Flank.neutral).heads, h.tdir = tdir) ∧
        (∀ l ∈ (targetStim false tloc tdir Flank.neutral).lines,
          l.pos.1 ≠ 0 → l.tdir = none ∧ l.short = false))
    ∧ (∀ flank : Flank, (targetStim true tloc tdir flank).heads = [] ∧
        (∀ l ∈ (targetStim true tloc tdir flank).lines, l.tdir = none)) :=
  fun tloc tdir =>
    ⟨targetStim_congruent_policy tloc tdir, targetStim_incongruent_policy tloc tdir,
     targetStim_neutral_policy tloc tdir, fun flank => targetStim_dummy_policy tloc tdir flank⟩

/-! Trial scheduler: inversion of a successful run. -/

/-- The fields of a record returned by `oneProcedure` are exactly the
interval computations of lines 295, 301, 309, 335 and 343-346. -/
lemma oneProcedure_fields {runDummy original short : Bool} {frameTime startTime : ℚ}
    {cond : Condition} {clk : TrialClock} {r : ℤ} {wk : ℚ → Option (String × ℚ)}
    {b : Bunch}
    (hres : oneProcedure runDummy original short frameTime startTime cond clk r wk
      = Except.ok (some b)) :
    b.t0 = clk.t0 ∧
    b.d1 = waitAndFlip clk (clk.t0 + (r : ℚ) / 1000) - clk.t0 ∧
    b.ct = waitAndFlip clk (clk.t0 + b.d1 + 1/10) - clk.t0 - b.d1 ∧
    b.d2 = waitAndFlip clk (clk.t0 + b.d1 + 1/10 + 2/5) - clk.t0 - b.d1 - b.ct ∧
    b.rt = clk.respRead - clk.t0 - b.d2 - b.ct - b.d1 ∧
    b.tf = (if ¬ short then waitAndFlip clk (clk.t0 + 4) - clk.t0
            else clk.shortRead - clk.t0) ∧
    b.wt = startTime + clk.t0 ∧
    b.condition = cond := by
  simp only [oneProcedure] at hres
  split at hres
  · simp only [Except.ok.injEq, Option.some.injEq] at hres
    subst hres
    exact ⟨rfl, rfl, rfl, rfl, rfl, rfl, rfl, rfl⟩
  · split at hres
    · exact absurd hres (by simp)
    · split at hres
      · exact absurd hres (by simp)
      · simp only [Except.ok.injEq, Option.some.injEq] at hres
        subst hres
        exact ⟨rfl, rfl, rfl, rfl, rfl, rfl, rfl, rfl⟩

/-- Evaluation of the scheduler on the demo inputs: the flips land on
their deadlines (t0 = 0, d1 = 0.5, ct = 0.1, d2 = 0.4), the key "left"
arrives and the response read happens at clock time 1.2. -/
lemma demoEval :
    oneProcedure false false false (1/60) 0 demoCond demoClock 500 demoKeys
      = Except.ok (some demoBunch) := by
  simp [oneProcedure, procBunch, demoCond, demoClock, demoKeys, demoBunch, waitAndFlip,
    respKeyMatches, tdirName, maxWaitDur, Bunch.mk.injEq]
  norm_num

/-- Evaluation of the scheduler on the padding-scenario inputs, where
the response arrives at t0 + 1.0 s. -/
lemma padEval :
    oneProcedure false false false (1/60) 0 demoCond padClock 500 padKeys
      = Except.ok (some padBunch) := by
  simp [oneProcedure, procBunch, demoCond, padClock, padKeys, padBunch, waitAndFlip,
    respKeyMatches, tdirName, maxWaitDur, Bunch.mk.injEq]
  norm_num

/-- C2: for every trial, the recorded response latency rt equals the
response clock reading minus target onset,
rt = responseClockTime - t0 - d1 - ct - d2 (line 335 of ant.py). -/
theorem rt_measured_from_target_onset
    (runDummy original short : Bool) (frameTime startTime : ℚ)
    (cond : Condition) (clk : TrialClock) (r : ℤ)
    (wk : ℚ → Option (String × ℚ)) (b : Bunch)
    (hres : oneProcedure runDummy original short frameTime startTime cond clk r wk
      = Except.ok (some b)) :
    b.rt = clk.respRead - b.t0 - b.d1 - b.ct - b.d2 := by
  obtain ⟨h0, -, -, -, h4, -, -, -⟩ := oneProcedure_fields hres
  rw [h4, h0]
  ring

/-- Witness for C2 at the spec scenario t0 = 0, d1 = 0.5, ct = 0.1,
d2 = 0.4, response clock time 1.2: rt = 0.2. -/
theorem rt_measured_from_target_onset_witness :
    oneProcedure false false false (1/60) 0 demoCond demoClock 500 demoKeys
      = Except.ok (some demoBunch)
    ∧ demoBunch.rt
        = demoClock.respRead - demoBunch.t0 - demoBunch.d1 - demoBunch.ct - demoBunch.d2
    ∧ demoBunch.rt = 1/5 :=
  ⟨demoEval,
   rt_measured_from_target_onset false false false (1/60) 0 demoCond demoClock 500
     demoKeys demoBunch demoEval,
   by norm_num [demoBunch]⟩

/-- C3: when every deadline-flip lands exactly on its requested
deadline and r is a randrange(tD1min, tD1max, 10) draw, the stage
boundaries of a recorded trial are monotonically non-decreasing and d1
lies in the half-open interval [tD1min/1000, tD1max/1000). -/
theorem stage_boundaries_monotone
    (runDummy original short : Bool) (frameTime startTime : ℚ)
    (cond : Condition) (clk : TrialClock) (r : ℤ)
    (wk : ℚ → Option (String × ℚ)) (b : Bunch)
    (hideal : ∀ t, clk.flip t = t)
    (hr1 : tD1min ≤ r) (hr2 : r < tD1max) (hr10 : r % 10 = 0)
    (hres : oneProcedure runDummy original short frameTime startTime cond clk r wk
      = Except.ok (some b)) :
    (b.t0 ≤ b.t0 + b.d1 ∧ b.t0 + b.d1 ≤ b.t0 + b.d1 + b.ct ∧
      b.t0 + b.d1 + b.ct ≤ b.t0 + b.d1 + b.ct + b.d2) ∧
    (tD1min : ℚ)/1000 ≤ b.d1 ∧ b.d1 < (tD1max : ℚ)/1000 := by
  obtain ⟨h0, h1, h2, h3, -, -, -, -⟩ := oneProcedure_fields hres
  rw [waitAndFlip, hideal] at h1
  rw [waitAndFlip, hideal] at h2
  rw [waitAndFlip, hideal] at h3
  have hd1 : b.d1 = (r : ℚ)/1000 := by rw [h1]; ring
  have hct : b.ct = 1/10 := by rw [h2]; ring
  have hd2 : b.d2 = 2/5 := by rw [h3, hct]; ring
  have hrq1 : (400 : ℚ) ≤ (r : ℚ) := by exact_mod_cast hr1
  have hrq2 : (r : ℚ) < (1600 : ℚ) := by exact_mod_cast hr2
  refine ⟨⟨?_, ?_, ?_⟩, ?_, ?_⟩ <;>
    simp only [hd1, hct, hd2] <;> norm_num [tD1min, tD1max] <;> linarith

/-- Witness for C3 at the demo inputs: r = 500, ideal flips, record
demoBunch. -/
theorem stage_boundaries_monotone_witness :
    (tD1min ≤ (500 : ℤ) ∧ (500 : ℤ) < tD1max ∧ (500 : ℤ) % 10 = 0)
    ∧ ((demoBunch.t0 ≤ demoBunch.t0 + demoBunch.d1 ∧
        demoBunch.t0 + demoBunch.d1 ≤ demoBunch.t0 + demoBunch.d1 + demoBunch.ct ∧
        demoBunch.t0 + demoBunch.d1 + demoBunch.ct
          ≤ demoBunch.t0 + demoBunch.d1 + demoBunch.ct + demoBunch.d2) ∧
      (tD1min : ℚ)/1000 ≤ demoBunch.d1 ∧ demoBunch.d1 < (tD1max : ℚ)/1000) :=
  ⟨⟨by decide, by decide, by decide⟩,
   stage_boundaries_monotone false false false (1/60) 0 demoCond demoClock 500
     demoKeys demoBunch (fun _ => rfl) (by decide) (by decide) (by decide) demoEval⟩

/-- The key-match test of lines 326-328 accepts exactly the alias set
that the spec lists for the target direction. -/
lemma respKeyMatches_iff_mem (tdir : TDir) (k : String) :
    respKeyMatches tdir k ↔ k ∈ claimAliasKeys tdir := by
  cases tdir <;> simp [respKeyMatches, claimAliasKeys, tdirName]

/-- Counterexample to C5 as stated: the captured key "0" matches
neither alias set yet is not classified Incorrect; the scheduler
instead crashes with an UnboundLocalError for resp, so no record with
any classification exists for that trial. -/
theorem response_classification_cex :
    oneProcedure false false false (1/60) 0 demoCond demoClock 500
        (fun _ => some ("0", 6/5))
      = Except.error (PyError.unboundLocal ("resp"))
    ∧ ¬ ∃ b : Bunch,
        oneProcedure false false false (1/60) 0 demoCond demoClock 500
            (fun _ => some ("0", 6/5))
          = Except.ok (some b) := by
  have h : oneProcedure false false false (1/60) 0 demoCond demoClock 500
      (fun _ => some ("0", 6/5)) = Except.error (PyError.unboundLocal ("resp")) := by
    simp [oneProcedure]
  refine ⟨h, ?_⟩
  rintro ⟨b, hb⟩
  rw [h] at hb
  cases hb

/-- C5 amended: for a captured key other than the reserved "0", the
response is Correct iff the key is the direction name or one of its
aliases, Incorrect otherwise; no key in the window gives Timeout; and
escape aborts: the scheduler returns no record and the session runner
halts the block. -/
theorem response_classification
    (runDummy original short : Bool) (frameTime startTime : ℚ) (cond : Condition)
    (clk : TrialClock) (r : ℤ) (k : String) (ts : ℚ) (hk0 : k ≠ "0") :
    (k = "escape" →
      oneProcedure runDummy original short frameTime startTime cond clk r
        (fun _ => some (k, ts)) = Except.ok none)
    ∧ (k ≠ "escape" →
      respOf (oneProcedure runDummy original short frameTime startTime cond clk r
          (fun _ => some (k, ts)))
        = some (if k ∈ claimAliasKeys cond.tdir then Resp.OK else Resp.NOK))
    ∧ respOf (oneProcedure runDummy original short frameTime startTime cond clk r
        (fun _ => none)) = some Resp.TIMEOUT := by
  refine ⟨?_, ?_, ?_⟩
  · intro hk
    subst hk
    simp [oneProcedure]
  · intro hke
    by_cases hm : respKeyMatches cond.tdir k
    · have hmem : k ∈ claimAliasKeys cond.tdir := (respKeyMatches_iff_mem _ _).mp hm
      simp [oneProcedure, procBunch, respOf, hke, hk0, hm, hmem]
    · have hnmem : k ∉ claimAliasKeys cond.tdir :=
        fun hmem => hm ((respKeyMatches_iff_mem _ _).mpr hmem)
      simp [oneProcedure, procBunch, respOf, hke, hk0, hm, hnmem]
  · simp [oneProcedure, procBunch, respOf]

/-- Witness for C5 at the spec scenario: direction left, key "a" is
classified Correct. -/
theorem response_classification_witness :
    respOf (oneProcedure false false false (1/60) 0 demoCond demoClock 500
        (fun _ => some ("a", 6/5)))
      = some (if ("a" : String) ∈ claimAliasKeys demoCond.tdir then Resp.OK else Resp.NOK) :=
  (response_classification false false false (1/60) 0 demoCond demoClock 500
    "a" (6/5) (by decide)).2.1 (by decide)

/-- C6 (code-bug exhibit): with the reserved no-op key "0" the trial
does not complete: `_oneProcedure` takes the branch of lines 324-325,
never assigns resp, and the record construction at line 354 raises
UnboundLocalError instead of returning a trial record. -/
theorem nullKey_raises_unbound_resp :
    oneProcedure false true false (1/60) 0 demoCond demoClock 500
        (fun _ => some ("0", 1))
      = Except.error (PyError.unboundLocal ("resp")) := by
  simp [oneProcedure]

/-- C7: the closing pad flip of a recorded trial is requested at the
absolute deadline t0 + tExp/1000 = t0 + 4.0 s regardless of the
response oracle, while in short mode tf is the elapsed clock reading
since t0 with no deadline. -/
theorem final_flip_at_deadline
    (runDummy original short : Bool) (frameTime startTime : ℚ)
    (cond : Condition) (clk : TrialClock) (r : ℤ)
    (wk : ℚ → Option (String × ℚ)) (b : Bunch)
    (hres : oneProcedure runDummy original short frameTime startTime cond clk r wk
      = Except.ok (some b)) :
    b.tf = (if short then clk.shortRead - b.t0
            else waitAndFlip clk (b.t0 + (tExp : ℚ)/1000) - b.t0) := by
  obtain ⟨h0, -, -, -, -, h5, -, -⟩ := oneProcedure_fields hres
  rw [h5, h0]
  cases short
  · simp
    norm_num [tExp]
  · simp

/-- Witness for C7 at the padding scenario: the response arrives at
t0 + 1.0 s and the final flip still happens at t0 + 4.0 s. -/
theorem final_flip_at_deadline_witness :
    oneProcedure false false false (1/60) 0 demoCond padClock 500 padKeys
      = Except.ok (some padBunch)
    ∧ padBunch.tf = (if false then padClock.shortRead - padBunch.t0
        else waitAndFlip padClock (padBunch.t0 + (tExp : ℚ)/1000) - padBunch.t0)
    ∧ padBunch.tf = 4 :=
  ⟨padEval,
   final_flip_at_deadline false false false (1/60) 0 demoCond padClock 500
     padKeys padBunch padEval,
   by norm_num [padBunch]⟩

/-- Counterexample to C8 as stated: at a 60 Hz refresh rate the
response window is not exactly 1700 ms (normal) nor exactly 700 ms
(dummy); one frame interval is subtracted. -/
theorem response_timeout_cex :
    maxWaitDur false (1/60) ≠ (1700 : ℚ)/1000 ∧ maxWaitDur true (1/60) ≠ (700 : ℚ)/1000 := by
  constructor <;> norm_num [maxWaitDur, tOut, tDummy]

/-- C8 amended: the response window timeout equals tOut/1000 −
frameTime in normal mode and tDummy/1000 − frameTime in passive/dummy
mode, and the scheduler consults the keyboard oracle only at that
value. -/
theorem response_timeout_window
    (runDummy original short : Bool) (frameTime startTime : ℚ)
    (cond : Condition) (clk : TrialClock) (r : ℤ)
    (wk wk2 : ℚ → Option (String × ℚ))
    (hagree : wk ((if runDummy then (tDummy : ℚ)/1000 else (tOut : ℚ)/1000) - frameTime)
        = wk2 ((if runDummy then (tDummy : ℚ)/1000 else (tOut : ℚ)/1000) - frameTime)) :
    maxWaitDur runDummy frameTime
      = (if runDummy then (tDummy : ℚ)/1000 else (tOut : ℚ)/1000) - frameTime
    ∧ oneProcedure runDummy original short frameTime startTime cond clk r wk
      = oneProcedure runDummy original short frameTime startTime cond clk r wk2 := by
  have hmw : maxWaitDur runDummy frameTime
      = (if runDummy then (tDummy : ℚ)/1000 else (tOut : ℚ)/1000) - frameTime := by
    cases runDummy <;> simp [maxWaitDur]
  refine ⟨hmw, ?_⟩
  simp only [oneProcedure, hmw, hagree]

/-- Witness for C8 amended, at 60 Hz in normal mode. -/
theorem response_timeout_window_witness :
    maxWaitDur false (1/60)
      = (if false then (tDummy : ℚ)/1000 else (tOut : ℚ)/1000) - 1/60
    ∧ oneProcedure false false false (1/60) 0 demoCond demoClock 500 demoKeys
      = oneProcedure false false false (1/60) 0 demoCond demoClock 500 demoKeys :=
  response_timeout_window false false false (1/60) 0 demoCond demoClock 500
    demoKeys demoKeys rfl

/-! Block randomizer: permutation, determinism in the generator
stream, and maxrun truncating consumption only. -/

/-- Putting the element at position i back in front of the remainder
recovers a permutation of the pool. -/
lemma getD_cons_eraseIdx_perm :
    ∀ (l : List ℕ) (i : ℕ), i < l.length → List.Perm (l.getD i 0 :: l.eraseIdx i) l
  | _ :: _, 0, _ => List.Perm.refl _
  | a :: l, i + 1, h => by
      have ih := getD_cons_eraseIdx_perm l i (Nat.lt_of_succ_lt_succ h)
      exact (List.Perm.swap a (l.getD i 0) (l.eraseIdx i)).trans (List.Perm.cons a ih)

/-- Selection sampling emits a permutation of its pool. -/
lemma sampleAux_perm (g : ℕ → ℕ) :
    ∀ (n j : ℕ) (pool : List ℕ), pool.length ≤ n →
      List.Perm (sampleAux g j pool) pool := by
  intro n
  induction n with
  | zero =>
      intro j pool hlen
      cases pool with
      | nil => simp [sampleAux]
      | cons x xs => simp at hlen
  | succ n ih =>
      intro j pool hlen
      cases pool with
      | nil => simp [sampleAux]
      | cons x xs =>
          have hidx : g j % (x :: xs).length < (x :: xs).length :=
            Nat.mod_lt _ (Nat.succ_pos xs.length)
          have hel : ((x :: xs).eraseIdx (g j % (x :: xs).length)).length
              = (x :: xs).length - 1 := by
            rw [List.length_eraseIdx, if_pos hidx]
          have herase : ((x :: xs).eraseIdx (g j % (x :: xs).length)).length ≤ n := by
            rw [hel]
            simp at hlen ⊢
            omega
          have ih2 := ih (j + 1) ((x :: xs).eraseIdx (g j % (x :: xs).length)) herase
          rw [sampleAux]
          exact (List.Perm.cons _ ih2).trans (getD_cons_eraseIdx_perm (x :: xs) _ hidx)

/-- C4 helper: the drawn permutation covers range n exactly. -/
lemma randomSample_perm (g : ℕ → ℕ) (n : ℕ) :
    List.Perm (randomSample g n) (List.range n) := by
  simpa [randomSample] using sampleAux_perm g (List.range n).length 0 (List.range n) le_rfl

/-- Selection sampling consults only the draws of its own positions:
two generator streams that agree there produce the same output. -/
lemma sampleAux_congr (g g2 : ℕ → ℕ) :
    ∀ (n j : ℕ) (pool : List ℕ), pool.length ≤ n →
      (∀ d, j ≤ d → d < j + pool.length → g d = g2 d) →
      sampleAux g j pool = sampleAux g2 j pool := by
  intro n
  induction n with
  | zero =>
      intro j pool hlen _
      cases pool with
      | nil => simp [sampleAux]
      | cons x xs => simp at hlen
  | succ n ih =>
      intro j pool hlen hag
      cases pool with
      | nil => simp [sampleAux]
      | cons x xs =>
          have hg : g j = g2 j := hag j le_rfl (by simp)
          have hidx : g2 j % (x :: xs).length < (x :: xs).length :=
            Nat.mod_lt _ (Nat.succ_pos xs.length)
          have hel : ((x :: xs).eraseIdx (g2 j % (x :: xs).length)).length
              = (x :: xs).length - 1 := by
            rw [List.length_eraseIdx, if_pos hidx]
          have herase : ((x :: xs).eraseIdx (g2 j % (x :: xs).length)).length ≤ n := by
            rw [hel]
            simp at hlen ⊢
            omega
          have hag2 : ∀ d, j + 1 ≤ d →
              d < (j + 1) + ((x :: xs).eraseIdx (g2 j % (x :: xs).length)).length →
              g d = g2 d := by
            intro d hd1 hd2
            refine hag d (by omega) ?_
            rw [hel] at hd2
            simp at hd2 ⊢
            omega
          have ih2 := ih (j + 1) ((x :: xs).eraseIdx (g2 j % (x :: xs).length)) herase hag2
          rw [sampleAux, sampleAux, hg]
          rw [ih2]

/-- C4 helper: the drawn permutation depends only on the first n draws
of the generator stream. -/
lemma randomSample_congr (g g2 : ℕ → ℕ) (n : ℕ)
    (hg : ∀ d, d < n → g d = g2 d) :
    randomSample g n = randomSample g2 n := by
  unfold randomSample
  exact sampleAux_congr g g2 (List.range n).length 0 (List.range n) le_rfl
    (fun d _ hd2 => hg d (by simpa using hd2))

/-! Session runner lemmas. -/

/-- A non-special captured key always yields a trial record. -/
lemma oneProcedure_completes (runDummy original short : Bool) (frameTime startTime : ℚ)
    (cond : Condition) (clk : TrialClock) (r : ℤ) (wk : ℚ → Option (String × ℚ))
    (k : String) (ts : ℚ)
    (hwk : wk (maxWaitDur runDummy frameTime) = some (k, ts))
    (h1 : k ≠ "escape") (h2 : k ≠ "0") :
    ∃ b : Bunch,
      oneProcedure runDummy original short frameTime startTime cond clk r wk
        = Except.ok (some b) := by
  refine ⟨procBunch short startTime cond clk r
    (if respKeyMatches cond.tdir k then Resp.OK else Resp.NOK), ?_⟩
  simp only [oneProcedure, hwk]
  rw [if_neg h1, if_neg h2]

/-- Destructor for `completesTrial`. -/
lemma completesTrial_elim {runDummy original : Bool} {frameTime startTime : ℚ}
    {i : ℕ} {o : TrialOracle}
    (h : completesTrial runDummy original frameTime startTime i o = true) :
    ∃ (hi : i < procedures.length) (b : Bunch),
      oneProcedure runDummy original false frameTime startTime
        (procedures.get ⟨i, hi⟩) o.clk o.r o.waitKeys = Except.ok (some b) := by
  by_cases hi : i < procedures.length
  · refine ⟨hi, ?_⟩
    unfold completesTrial at h
    rw [dif_pos hi] at h
    cases hres : oneProcedure runDummy original false frameTime startTime
        (procedures.get ⟨i, hi⟩) o.clk o.r o.waitKeys with
    | error e => rw [hres] at h; simp at h
    | ok ob =>
        cases ob with
        | none => rw [hres] at h; simp at h
        | some b => exact ⟨b, rfl⟩
  · unfold completesTrial at h
    rw [dif_neg hi] at h
    cases h

/-- Destructor for `abortsTrial`. -/
lemma abortsTrial_elim {runDummy original : Bool} {frameTime startTime : ℚ}
    {i : ℕ} {o : TrialOracle}
    (h : abortsTrial runDummy original frameTime startTime i o = true) :
    ∃ hi : i < procedures.length,
      oneProcedure runDummy original false frameTime startTime
        (procedures.get ⟨i, hi⟩) o.clk o.r o.waitKeys = Except.ok none := by
  by_cases hi : i < procedures.length
  · refine ⟨hi, ?_⟩
    unfold abortsTrial at h
    rw [dif_pos hi] at h
    cases hres : oneProcedure runDummy original false frameTime startTime
        (procedures.get ⟨i, hi⟩) o.clk o.r o.waitKeys with
    | error e => rw [hres] at h; simp at h
    | ok ob =>
        cases ob with
        | none => exact rfl
        | some b => rw [hres] at h; simp at h
  · unfold abortsTrial at h
    rw [dif_neg hi] at h
    cases h

/-- Any condition of the space completes against the demo oracle. -/
lemma completesTrial_demo (runDummy original : Bool) (frameTime startTime : ℚ)
    (i : ℕ) (hi : i < procedures.length) :
    completesTrial runDummy original frameTime startTime i demoOracle = true := by
  obtain ⟨b, hb⟩ := oneProcedure_completes runDummy original false frameTime startTime
    (procedures.get ⟨i, hi⟩) demoClock 500 demoKeys "left" (6/5) rfl
    (by decide) (by decide)
  unfold completesTrial
  rw [dif_pos hi]
  have hclk : demoOracle.clk = demoClock := rfl
  have hr : demoOracle.r = 500 := rfl
  have hwk : demoOracle.waitKeys = demoKeys := rfl
  rw [hclk, hr, hwk, hb]

/-- The loop consumes a prefix: running over the first m list entries
with no cap equals running over the whole list with cap m. -/
lemma expLoop_take (runDummy original : Bool) (frameTime startTime : ℚ)
    (oracle : ℕ → TrialOracle) :
    ∀ (l : List ℕ) (k : ℕ) (a : ℕ → ExpRow) (m : ℤ), 0 < m →
      expLoop runDummy original frameTime startTime oracle k a (l.take m.toNat) none
        = expLoop runDummy original frameTime startTime oracle k a l (some m) := by
  intro l
  induction l with
  | nil =>
      intro k a m hm
      simp [expLoop]
  | cons i rest ih =>
      intro k a m hm
      have htak : (i :: rest).take m.toNat = i :: rest.take (m.toNat - 1) := by
        have hsucc : m.toNat = (m.toNat - 1) + 1 := by omega
        rw [hsucc]
        rfl
      rw [htak]
      simp only [expLoop]
      split
      · split
        · rfl
        · rfl
        · by_cases hm1 : m - 1 = 0
          · have hm2 : m.toNat - 1 = 0 := by omega
            rw [hm2, if_pos hm1]
            simp [expLoop]
          · have hm3 : 0 < m - 1 := by omega
            have hm4 : m.toNat - 1 = (m - 1).toNat := by omega
            rw [if_neg hm1, hm4]
            exact ih (k + 1) _ (m - 1) hm3
      · rfl

/-- When every trial before position p1.length completes and the trial
at that position aborts, the loop returns None. -/
lemma expLoop_abort (runDummy original : Bool) (frameTime startTime : ℚ) :
    ∀ (p1 : List ℕ) (oracle : ℕ → TrialOracle) (k : ℕ) (a : ℕ → ExpRow)
      (i : ℕ) (rest : List ℕ),
      (∀ j (hj : j < p1.length),
        completesTrial runDummy original frameTime startTime
          (p1.get ⟨j, hj⟩) (oracle (k + j)) = true) →
      abortsTrial runDummy original frameTime startTime i (oracle (k + p1.length)) = true →
      expLoop runDummy original frameTime startTime oracle k a (p1 ++ i :: rest) none
        = Except.ok none := by
  intro p1
  induction p1 with
  | nil =>
      intro oracle k a i rest _ habort
      simp only [List.length_nil, Nat.add_zero] at habort
      obtain ⟨hi, hone⟩ := abortsTrial_elim habort
      rw [List.nil_append, expLoop]
      rw [dif_pos hi, hone]
  | cons i1 p1 ih =>
      intro oracle k a i rest hall habort
      have h0 : completesTrial runDummy original frameTime startTime i1 (oracle k) = true := by
        simpa using hall 0 (by simp)
      obtain ⟨hi1, b, hone⟩ := completesTrial_elim h0
      rw [List.cons_append, expLoop]
      rw [dif_pos hi1, hone]
      refine ih oracle (k + 1) _ i rest ?_ ?_
      · intro j hj
        have := hall (j + 1) (by simpa using Nat.succ_lt_succ hj)
        rw [show k + (j + 1) = k + 1 + j from by omega] at this
        exact this
      · rw [show k + 1 + p1.length = k + (i1 :: p1).length from by simp; omega]
        exact habort

/-- When every trial of the list completes, the loop returns a table
in which each visited index i holds the row of condition i, and the
other slots are untouched. -/
lemma expLoop_allComplete (runDummy original : Bool) (frameTime startTime : ℚ) :
    ∀ (l : List ℕ) (oracle : ℕ → TrialOracle) (k : ℕ) (a : ℕ → ExpRow),
      (∀ j (hj : j < l.length),
        completesTrial runDummy original frameTime startTime
          (l.get ⟨j, hj⟩) (oracle (k + j)) = true) →
      ∃ f : ℕ → ExpRow,
        expLoop runDummy original frameTime startTime oracle k a l none
          = Except.ok (some f)
        ∧ (∀ i, i ∉ l → f i = a i)
        ∧ (∀ i ∈ l, ∃ (hi : i < procedures.length) (b : Bunch),
            f i = expRow i (procedures.get ⟨i, hi⟩) b) := by
  intro l
  induction l with
  | nil =>
      intro oracle k a _
      exact ⟨a, by rw [expLoop], fun i _ => rfl, by simp⟩
  | cons i1 rest ih =>
      intro oracle k a hall
      have h0 : completesTrial runDummy original frameTime startTime i1 (oracle k) = true := by
        simpa using hall 0 (by simp)
      obtain ⟨hi1, b, hone⟩ := completesTrial_elim h0
      have hall2 : ∀ j (hj : j < rest.length),
          completesTrial runDummy original frameTime startTime
            (rest.get ⟨j, hj⟩) (oracle (k + 1 + j)) = true := by
        intro j hj
        have := hall (j + 1) (by simpa using Nat.succ_lt_succ hj)
        rw [show k + (j + 1) = k + 1 + j from by omega] at this
        exact this
      obtain ⟨f, hf, hout, hin⟩ := ih oracle (k + 1)
        (fun j => if j = i1 then expRow i1 (procedures.get ⟨i1, hi1⟩) b else a j) hall2
      refine ⟨f, ?_, ?_, ?_⟩
      · rw [expLoop, dif_pos hi1, hone]
        exact hf
      · intro i hni
        have hni1 : i ≠ i1 := fun he => hni (by rw [he]; exact List.mem_cons_self i1 rest)
        have hnr : i ∉ rest := fun hr => hni (List.mem_cons_of_mem i1 hr)
        rw [hout i hnr]
        simp [hni1]
      · intro i hmem
        rcases List.mem_cons.mp hmem with he | hr
        · subst he
          by_cases hir : i ∈ rest
          · exact hin i hir
          · refine ⟨hi1, b, ?_⟩
            rw [hout i hir]
            simp
        · exact hin i hr

/-- Counterexample to C1 as stated: with condition 0 completed
(correct "left" response) and the escape key pressed during condition
1, `fullExperiment` returns None, not a one-row table of the completed
trial. -/
theorem session_abort_cex :
    fullExperiment false false (1/60) 0 abortOracle ([0, 1]) none = Except.ok none
    ∧ ¬ ∃ rows : List ExpRow,
        fullExperiment false false (1/60) 0 abortOracle ([0, 1]) none
          = Except.ok (some rows) := by
  have h : fullExperiment false false (1/60) 0 abortOracle ([0, 1]) none
      = Except.ok none := rfl
  refine ⟨h, ?_⟩
  rintro ⟨rows, hrows⟩
  rw [h] at hrows
  cases hrows

/-- C1 amended: when the user aborts mid-block after any number of
completed trials, `fullExperiment` returns None, discarding the
in-flight trial and all trials completed earlier in the block alike;
no table of completed trials is returned. -/
theorem session_abort_returns_none
    (runDummy original : Bool) (frameTime startTime : ℚ) (oracle : ℕ → TrialOracle)
    (p1 : List ℕ) (i : ℕ) (rest : List ℕ)
    (hall : ∀ j (hj : j < p1.length),
      completesTrial runDummy original frameTime startTime (p1.get ⟨j, hj⟩) (oracle j) = true)
    (habort : abortsTrial runDummy original frameTime startTime i (oracle p1.length) = true) :
    fullExperiment runDummy original frameTime startTime oracle (p1 ++ i :: rest) none
      = Except.ok none := by
  have h := expLoop_abort runDummy original frameTime startTime p1 oracle 0
    (fun _ => zeroRow) i rest
    (fun j hj => by simpa using hall j hj)
    (by simpa using habort)
  simp [fullExperiment, h, Except.map]

/-- Witness for C1 amended: one completed trial, then an abort. -/
theorem session_abort_returns_none_witness :
    (∀ j (hj : j < ([0] : List ℕ).length),
      completesTrial false false (1/60) 0 (([0] : List ℕ).get ⟨j, hj⟩) (abortOracle j) = true)
    ∧ abortsTrial false false (1/60) 0 1 (abortOracle ([0] : List ℕ).length) = true
    ∧ fullExperiment false false (1/60) 0 abortOracle ([0] ++ 1 :: []) none
        = Except.ok none := by
  have hall : ∀ j (hj : j < ([0] : List ℕ).length),
      completesTrial false false (1/60) 0 (([0] : List ℕ).get ⟨j, hj⟩) (abortOracle j)
        = true := by
    intro j hj
    have hj0 : j = 0 := by simpa using hj
    subst hj0
    rfl
  have habort : abortsTrial false false (1/60) 0 1 (abortOracle ([0] : List ℕ).length)
      = true := rfl
  exact ⟨hall, habort,
    session_abort_returns_none false false (1/60) 0 abortOracle [0] 1 [] hall habort⟩

/-- C4: the block randomizer draws a permutation of all 48 condition
indices without replacement; the same generator stream yields the same
ordering (only the first 48 draws matter); and maxrun truncates how
many trials are consumed, not the generation of the permutation: a full
run over the truncated prefix coincides with a capped run over the full
permutation. -/
theorem block_randomizer_props
    (g g2 : ℕ → ℕ) (hg : ∀ d, d < procedures.length → g d = g2 d)
    (m : ℤ) (hm : 0 < m)
    (runDummy original : Bool) (frameTime startTime : ℚ) (oracle : ℕ → TrialOracle) :
    List.Perm (randomSample g procedures.length) (List.range procedures.length)
    ∧ randomSample g procedures.length = randomSample g2 procedures.length
    ∧ fullExperiment runDummy original frameTime startTime oracle
        ((randomSample g procedures.length).take m.toNat) none
      = fullExperimentRun g runDummy original frameTime startTime oracle (some m) := by
  refine ⟨randomSample_perm g _, randomSample_congr g g2 _ hg, ?_⟩
  unfold fullExperimentRun fullExperiment
  rw [expLoop_take runDummy original frameTime startTime oracle
    (randomSample g procedures.length) 0 (fun _ => zeroRow) m hm]

/-- Witness for C4 with the identity draw stream and maxrun 2. -/
theorem block_randomizer_props_witness :
    ((0 : ℤ) < 2)
    ∧ (List.Perm (randomSample (fun d => d) procedures.length)
          (List.range procedures.length)
      ∧ randomSample (fun d => d) procedures.length
          = randomSample (fun d => d) procedures.length
      ∧ fullExperiment false false (1/60) 0 (fun _ => demoOracle)
          ((randomSample (fun d => d) procedures.length).take (2 : ℤ).toNat) none
        = fullExperimentRun (fun d => d) false false (1/60) 0 (fun _ => demoOracle)
            (some 2)) :=
  ⟨by decide,
   block_randomizer_props (fun d => d) (fun d => d) (fun _ _ => rfl) 2 (by decide)
     false false (1/60) 0 (fun _ => demoOracle)⟩

/-- C10: for a fully completed block run over any permutation of the
condition space, the returned table has one row per condition, stored
at row index i for condition i of the enumeration order: the
trialIndex field is i and the warning and congruency codes are those
of condition i, regardless of the execution order. -/
theorem rows_in_enumeration_order
    (runDummy original : Bool) (frameTime startTime : ℚ) (oracle : ℕ → TrialOracle)
    (perm : List ℕ)
    (hperm : List.Perm perm (List.range procedures.length))
    (hall : ∀ j (hj : j < perm.length),
      completesTrial runDummy original frameTime startTime (perm.get ⟨j, hj⟩) (oracle j) = true) :
    ∃ rows : List ExpRow,
      fullExperiment runDummy original frameTime startTime oracle perm none
        = Except.ok (some rows)
      ∧ rows.length = procedures.length
      ∧ ∀ (i : ℕ) (hi : i < procedures.length) (hr : i < rows.length),
          (rows.get ⟨i, hr⟩).trialIndex = i
          ∧ (rows.get ⟨i, hr⟩).warningType = warningTypeCode (procedures.get ⟨i, hi⟩).cue
          ∧ (rows.get ⟨i, hr⟩).congruency = congruencyCode (procedures.get ⟨i, hi⟩).flank
          ∧ (rows.get ⟨i, hr⟩).complete = 1 := by
  obtain ⟨f, hf, hout, hin⟩ := expLoop_allComplete runDummy original frameTime startTime
    perm oracle 0 (fun _ => zeroRow) (fun j hj => by simpa using hall j hj)
  have hmem : ∀ i, i < procedures.length → i ∈ perm := fun i hi =>
    (hperm.mem_iff).mpr (List.mem_range.mpr hi)
  have hrowi : ∀ i (hi : i < procedures.length), ∃ b : Bunch,
      f i = expRow i (procedures.get ⟨i, hi⟩) b := by
    intro i hi
    obtain ⟨hi2, b, hb⟩ := hin i (hmem i hi)
    exact ⟨b, hb⟩
  have hcomp : ∀ i, i < procedures.length → (f i).complete = 1 := by
    intro i hi
    obtain ⟨b, hb⟩ := hrowi i hi
    rw [hb]
    rfl
  have hfilter : completedRows f = (List.range procedures.length).map f := by
    unfold completedRows
    apply List.filter_eq_self.mpr
    intro row hrow
    obtain ⟨i, hi, hfi⟩ := List.mem_map.mp hrow
    have hc := hcomp i (List.mem_range.mp hi)
    rw [← hfi]
    simp [hc]
  refine ⟨(List.range procedures.length).map f, ?_, by simp, ?_⟩
  · simp [fullExperiment, hf, Except.map, hfilter]
  · intro i hi hr
    have hget : ((List.range procedures.length).map f).get ⟨i, hr⟩ = f i := by
      simp
    obtain ⟨b, hb⟩ := hrowi i hi
    rw [hget, hb]
    exact ⟨rfl, rfl, rfl, rfl⟩

/-- Witness for C10: a full run over the reversed enumeration order
(so execution order differs from storage order) with the demo oracle. -/
theorem rows_in_enumeration_order_witness :
    List.Perm ((List.range procedures.length).reverse) (List.range procedures.length)
    ∧ ∃ rows : List ExpRow,
        fullExperiment false false (1/60) 0 (fun _ => demoOracle)
            ((List.range procedures.length).reverse) none
          = Except.ok (some rows)
        ∧ rows.length = procedures.length
        ∧ ∀ (i : ℕ) (hi : i < procedures.length) (hr : i < rows.length),
            (rows.get ⟨i, hr⟩).trialIndex = i
            ∧ (rows.get ⟨i, hr⟩).warningType
                = warningTypeCode (procedures.get ⟨i, hi⟩).cue
            ∧ (rows.get ⟨i, hr⟩).congruency
                = congruencyCode (procedures.get ⟨i, hi⟩).flank
            ∧ (rows.get ⟨i, hr⟩).complete = 1 := by
  have hperm : List.Perm ((List.range procedures.length).reverse)
      (List.range procedures.length) := List.reverse_perm _
  refine ⟨hperm, rows_in_enumeration_order false false (1/60) 0 (fun _ => demoOracle)
    ((List.range procedures.length).reverse) hperm ?_⟩
  intro j hj
  have hmem : ((List.range procedures.length).reverse).get ⟨j, hj⟩
      ∈ (List.range procedures.length).reverse := List.get_mem _ _ _
  have hlt : ((List.range procedures.length).reverse).get ⟨j, hj⟩ < procedures.length :=
    List.mem_range.mp (hperm.subset hmem)
  exact completesTrial_demo false false (1/60) 0 _ hlt

end ANT
